import Mathlib

/-!
Shallow embedding of the hoard deterministic encrypted store:
the content-addressed store (`storage/storage.go`), the encrypted-store
facade (`hoard.go`), the `hoarctl` command-line front end, and the S3
credentials-provider chain, together with proofs of the spec's claims
about them.

Byte strings are modelled as `List Nat` (each element one byte).
Go's `(value, error)` returns are modelled with `Except` or with an
explicit `Option` error component; store backends are modelled as
explicit state passed through each operation.
-/

set_option autoImplicit false

namespace Hoard

/-- A byte string (`[]byte` in Go). -/
abbrev Bytes := List Nat

/-- Go `error` values, modelled by their message. -/
abbrev Err := String

/-! ### Hasher model (`hash.Hash` as used by `makeAddresser` in `hoard.go`)

A `hash.Hash` is a stateful object accumulating written bytes; `Sum nil`
finalizes the accumulated buffer through the digest function without
mutating the state.  The digest function itself (SHA-256 for
`sha256.New()`) is kept abstract as a parameter `digest`. -/

/-- State of a Go `hash.Hash`: the bytes written since the last reset. -/
structure Hasher where
  buf : Bytes
deriving DecidableEq, Repr

/-- `sha256.New()`: a freshly initialized hasher. -/
def Hasher.new : Hasher := ⟨[]⟩

/-- `hasher.Reset()`: clears the accumulated state. -/
def Hasher.reset (_h : Hasher) : Hasher := ⟨[]⟩

/-- `hasher.Write(data)`: appends `data` to the accumulated state. -/
def Hasher.write (h : Hasher) (data : Bytes) : Hasher := ⟨h.buf ++ data⟩

/-- `hasher.Sum(nil)`: the digest of the accumulated state. -/
def Hasher.sum (digest : Bytes → Bytes) (h : Hasher) : Bytes := digest h.buf

/-- One call of the closure returned by `makeAddresser` (`hoard.go`):
`hasher.Reset(); hasher.Write(data); return hasher.Sum(nil)`.  The captured
hasher's state is threaded explicitly: the call returns the digest together
with the hasher state left behind for the next call. -/
def makeAddresser (digest : Bytes → Bytes) (hasher : Hasher) (data : Bytes) :
    Bytes × Hasher :=
  let h1 := hasher.reset
  let h2 := h1.write data
  (h2.sum digest, h2)

/-- A sequence of calls to the addresser closure, threading the captured
hasher state; returns the list of results. -/
def runAddresser (digest : Bytes → Bytes) : Hasher → List Bytes → List Bytes × Hasher
  | h, [] => ([], h)
  | h, d :: ds =>
    let r := makeAddresser digest h d
    let rs := runAddresser digest r.2 ds
    (r.1 :: rs.1, rs.2)

/-! ### Store interface and content-addressed store (`storage/storage.go`) -/

/-- `storage.StatInfo`. -/
structure StatInfo where
  Exists : Bool
  Size : Nat
deriving DecidableEq, Repr

/-- The `storage.Store` interface over an explicit backend state `σ`:
`Put` returns the new backend state and an optional error (mirroring Go's
`Put(address, data) error`), `Get` and `Stat` are read-only. -/
structure Store (σ : Type) where
  Put : Bytes → Bytes → σ → σ × Option Err
  Get : Bytes → σ → Except Err Bytes
  Stat : Bytes → σ → Except Err StatInfo

/-- `storage.contentAddressedStore`: an addresser plus an underlying store. -/
structure ContentAddressedStore (σ : Type) where
  addresser : Bytes → Bytes
  store : Store σ

/-- `contentAddressedStore.Address`: `cas.addresser(data)`. -/
def ContentAddressedStore.Address {σ : Type} (cas : ContentAddressedStore σ)
    (data : Bytes) : Bytes :=
  cas.addresser data

/-- `contentAddressedStore.Put`:
`address := cas.addresser(data); err := cas.store.Put(address, data);
return address, err`.  Returns `(address, err)` (the Go return values) and
the backend state after the call. -/
def ContentAddressedStore.Put {σ : Type} (cas : ContentAddressedStore σ)
    (data : Bytes) (s : σ) : (Bytes × Option Err) × σ :=
  let address := cas.addresser data
  let r := cas.store.Put address data s
  ((address, r.2), r.1)

/-- `contentAddressedStore.Get`: direct delegation to the underlying store. -/
def ContentAddressedStore.Get {σ : Type} (cas : ContentAddressedStore σ)
    (address : Bytes) (s : σ) : Except Err Bytes :=
  cas.store.Get address s

/-- `contentAddressedStore.Stat`: direct delegation to the underlying store. -/
def ContentAddressedStore.Stat {σ : Type} (cas : ContentAddressedStore σ)
    (address : Bytes) (s : σ) : Except Err StatInfo :=
  cas.store.Stat address s

/-! ### References and the encrypted-store facade (`hoard.go`)

`Encrypt` and `Decrypt` live outside the embedded sources; the facade
calls them as opaque deterministic functions, so the facade operations are
parameterized over them: every theorem below holds for an arbitrary
`Encrypt`/`Decrypt`, in particular for the real ones. -/

/-- `reference.Ref`: the (address, secret key, salt) triple. -/
structure Ref where
  Address : Bytes
  SecretKey : Bytes
  Salt : Bytes
deriving DecidableEq, Repr

/-- `reference.New(address, secretKey, salt)`. -/
def Reference.New (address secretKey salt : Bytes) : Ref :=
  ⟨address, secretKey, salt⟩

/-- The result of `Encrypt`: a blob with `EncryptedData()` and `SecretKey()`. -/
structure Blob where
  encryptedData : Bytes
  secretKey : Bytes
deriving DecidableEq, Repr

/-- `hoard.Put` (`hoard.go`): encrypt, put the ciphertext in the
content-addressed store, return the reference.  Returns the Go result
(`*Ref, error` as `Except Err Ref`) paired with the backend state after
the call. -/
def hoardPut {σ : Type} (Encrypt : Bytes → Bytes → Except Err Blob)
    (cas : ContentAddressedStore σ) (data salt : Bytes) (s : σ) :
    Except Err Ref × σ :=
  match Encrypt data salt with
  | .error e => (.error e, s)
  | .ok blob =>
    let r := ContentAddressedStore.Put cas blob.encryptedData s
    match r.1.2 with
    | some e => (.error e, r.2)
    | none => (.ok (Reference.New r.1.1 blob.secretKey salt), r.2)

/-- `hoard.Ref` (`hoard.go`): encrypt, compute the address without
writing, return the reference.  Takes and returns the backend state to
make the absence of writes expressible. -/
def hoardRef {σ : Type} (Encrypt : Bytes → Bytes → Except Err Blob)
    (cas : ContentAddressedStore σ) (data salt : Bytes) (s : σ) :
    Except Err Ref × σ :=
  match Encrypt data salt with
  | .error e => (.error e, s)
  | .ok blob =>
    (.ok (Reference.New (cas.Address blob.encryptedData) blob.secretKey salt), s)

/-- `hoard.Get` (`hoard.go`): fetch the ciphertext at `ref.Address`, then
decrypt with `ref.SecretKey` and `ref.Salt`. -/
def hoardGet {σ : Type} (Decrypt : Bytes → Bytes → Bytes → Except Err Bytes)
    (cas : ContentAddressedStore σ) (ref : Ref) (s : σ) : Except Err Bytes :=
  match ContentAddressedStore.Get cas ref.Address s with
  | .error e => .error e
  | .ok encryptedData =>
    match Decrypt ref.SecretKey encryptedData ref.Salt with
    | .error e => .error e
    | .ok data => .ok data

/-! ### A concrete in-memory backend, used to instantiate the theorems -/

/-- State of the in-memory backend: newest-first association list from
addresses to stored blobs. -/
abbrev MemState := List (Bytes × Bytes)

/-- An in-memory `Store`: `Put` prepends, `Get` fails on a missing
address, `Stat` reports existence and size without error. -/
def memStore : Store MemState where
  Put := fun address data s => ((address, data) :: s, none)
  Get := fun address s =>
    match s.lookup address with
    | some d => .ok d
    | none => .error "blob not found"
  Stat := fun address s =>
    match s.lookup address with
    | some d => .ok ⟨true, d.length⟩
    | none => .ok ⟨false, 0⟩

/-- A trivial digest used to exercise the definitions on concrete inputs. -/
def lenDigest (data : Bytes) : Bytes := [data.length % 256]

/-- A content-addressed store over the in-memory backend. -/
def memCAS : ContentAddressedStore MemState := ⟨lenDigest, memStore⟩

/-! ### Standard base64 (`encoding/base64` `StdEncoding.DecodeString`)

Go's decoder skips CR and LF anywhere, requires full padded quanta
otherwise, allows padding only to complete the final quantum, rejects any
byte after the padding, and does not check the discarded low bits of a
padded final quantum. -/

/-- Value of a character in the standard base64 alphabet. -/
def b64Val (c : Char) : Option Nat :=
  if 65 ≤ c.toNat ∧ c.toNat ≤ 90 then some (c.toNat - 65)
  else if 97 ≤ c.toNat ∧ c.toNat ≤ 122 then some (c.toNat - 97 + 26)
  else if 48 ≤ c.toNat ∧ c.toNat ≤ 57 then some (c.toNat - 48 + 52)
  else if c = '+' then some 62
  else if c = '/' then some 63
  else none

/-- Decode a newline-free character stream quantum by quantum. -/
def b64DecodeGroups : List Char → Option Bytes
  | [] => some []
  | c1 :: c2 :: c3 :: c4 :: rest =>
    match b64Val c1, b64Val c2 with
    | some a, some b =>
      match b64Val c3, b64Val c4 with
      | some c, some d =>
        match b64DecodeGroups rest with
        | some bs =>
          some ((a * 4 + b / 16) :: (b % 16 * 16 + c / 4) :: (c % 4 * 64 + d) :: bs)
        | none => none
      | some c, none =>
        if c4 = '=' ∧ rest = [] then
          some [a * 4 + b / 16, b % 16 * 16 + c / 4]
        else none
      | none, _ =>
        if c3 = '=' ∧ c4 = '=' ∧ rest = [] then some [a * 4 + b / 16]
        else none
    | _, _ => none
  | _ => none

/-- `base64.StdEncoding.DecodeString`: `none` models a decode error. -/
def decodeStringStd (s : String) : Option Bytes :=
  b64DecodeGroups (s.data.filter (fun c => c != '\n' && c != '\r'))

/-- UTF-8 encoding of one Unicode scalar value. -/
def utf8Bytes (c : Char) : Bytes :=
  let n := c.toNat
  if n < 128 then [n]
  else if n < 2048 then [192 + n / 64, 128 + n % 64]
  else if n < 65536 then [224 + n / 4096, 128 + n / 64 % 64, 128 + n % 64]
  else [240 + n / 262144, 128 + n / 4096 % 64, 128 + n / 64 % 64, 128 + n % 64]

/-- The raw bytes of a Go string: its UTF-8 encoding (`([]byte)(s)`). -/
def strUTF8Bytes (s : String) : Bytes :=
  (s.data.map utf8Bytes).flatten

/-! ### The `hoarctl` command line front end -/

/-- Effect of `fatalf(format, ...)`: the formatted message plus a newline
on STDERR, then `os.Exit(1)`. -/
structure FatalExit where
  stderrLine : String
  exitCode : Nat
deriving DecidableEq, Repr

/-- `fatalf`: `fmt.Fprintf(os.Stderr, format+"\n", ...); os.Exit(1)`. -/
def fatalf (msg : String) : FatalExit :=
  { stderrLine := msg ++ "\n", exitCode := 1 }

/-- `parseSalt` (`hoarctl`): empty string gives a nil salt; a string that
decodes as standard base64 gives the decoded bytes; anything else gives
the raw bytes of the string itself. -/
def parseSalt (saltString : String) : Bytes :=
  if saltString = "" then []
  else
    match decodeStringStd saltString with
    | some saltBytes => saltBytes
    | none => strUTF8Bytes saltString

/-- `readBase64` (`hoarctl`): decode or die via `fatalf`. -/
def readBase64 (base64String : String) : Except FatalExit Bytes :=
  match decodeStringStd base64String with
  | some bs => .ok bs
  | none =>
    .error (fatalf ("Could not decode '" ++ base64String ++
      "' as base64-encoded string"))

/-- Observable outcome of the `get` command's argument-handling phase. -/
inductive GetCmdOutcome where
  /-- The process printed to STDERR and exited before issuing any RPC. -/
  | fatal (f : FatalExit)
  /-- The command issues `cleartextClient.Get` with this reference. -/
  | rpc (ref : Ref)
  /-- No ADDRESS argument: the reference is read from STDIN instead. -/
  | stdinRef
deriving DecidableEq, Repr

/-- The `get` command action (`hoarctl`), up to the RPC call: with a
non-empty ADDRESS argument it requires `--key`, then decodes address and
key as base64 and parses the salt; with no ADDRESS it falls back to a
reference on STDIN. -/
def getCmdAction (address secretKey saltString : String) : GetCmdOutcome :=
  if address ≠ "" then
    if secretKey = "" then
      .fatal (fatalf "A secret key must be provided in order to decrypt.")
    else
      match readBase64 address with
      | .error f => .fatal f
      | .ok addressBytes =>
        match readBase64 secretKey with
        | .error f => .fatal f
        | .ok keyBytes =>
          .rpc (Reference.New addressBytes keyBytes (parseSalt saltString))
  else .stdinRef

/-! ### S3 credentials-provider chain (`config/storage`) -/

/-- `EnvProviderName`. -/
def EnvProviderName : String := "env"

/-- `SharedCredentialsProviderName`. -/
def SharedCredentialsProviderName : String := "shared"

/-- `StaticProviderName`. -/
def StaticProviderName : String := "static"

/-- `SharedCredentialsProviderConfig`. -/
structure SharedCredentialsProviderConfig where
  Filename : String
  Profile : String
deriving DecidableEq, Repr

/-- `StaticProviderConfig`. -/
structure StaticProviderConfig where
  AccessKeyID : String
  SecretAccessKey : String
  SessionToken : String
deriving DecidableEq, Repr

/-- `CredentialsProviderConfig`: a provider name plus the optional
embedded sub-configurations (nil pointers modelled as `none`). -/
structure CredentialsProviderConfig where
  Provider : String
  sharedCredentialsProviderConfig : Option SharedCredentialsProviderConfig
  staticProviderConfig : Option StaticProviderConfig
deriving DecidableEq, Repr

/-- An AWS `credentials.Provider` value, by its construction. -/
inductive AWSProvider where
  | envProvider
  | sharedCredentialsProvider (Filename Profile : String)
  | staticProvider (AccessKeyID SecretAccessKey SessionToken : String)
deriving DecidableEq, Repr

/-- `(*SharedCredentialsProviderConfig).Provider()`: errors on a nil
receiver. -/
def SharedCredentialsProviderConfig.toProvider :
    Option SharedCredentialsProviderConfig → Except Err AWSProvider
  | none =>
    .error ("Must include shared credentials provider config in order to " ++
      "form shared credentials provider.")
  | some scpc => .ok (.sharedCredentialsProvider scpc.Filename scpc.Profile)

/-- `(*StaticProviderConfig).Provider()`: errors on a nil receiver. -/
def StaticProviderConfig.toProvider :
    Option StaticProviderConfig → Except Err AWSProvider
  | none =>
    .error ("Must include static provider config in order to form " ++
      "static provider.")
  | some spc =>
    .ok (.staticProvider spc.AccessKeyID spc.SecretAccessKey spc.SessionToken)

/-- One iteration of the loop body of `AWSCredentialsFromChain`: the
switch on `cpc.Provider`. -/
def mkChainProvider (cpc : CredentialsProviderConfig) : Except Err AWSProvider :=
  if cpc.Provider = EnvProviderName then .ok .envProvider
  else if cpc.Provider = SharedCredentialsProviderName then
    SharedCredentialsProviderConfig.toProvider cpc.sharedCredentialsProviderConfig
  else if cpc.Provider = StaticProviderName then
    StaticProviderConfig.toProvider cpc.staticProviderConfig
  else
    .error ("Credential provider named '" ++ cpc.Provider ++
      "' could not be found")

/-- The provider-accumulating loop of `AWSCredentialsFromChain`: stops at
the first failing entry. -/
def buildProviders : List CredentialsProviderConfig → Except Err (List AWSProvider)
  | [] => .ok []
  | cpc :: rest =>
    match mkChainProvider cpc with
    | .error e => .error e
    | .ok p =>
      match buildProviders rest with
      | .error e => .error e
      | .ok ps => .ok (p :: ps)

/-- `AWSCredentialsFromChain`: build one provider per config in order; on
success wrap a non-empty provider list in chain credentials (`some`), and
return nil credentials (`none`) for an empty list. -/
def AWSCredentialsFromChain (cpcs : List CredentialsProviderConfig) :
    Except Err (Option (List AWSProvider)) :=
  match buildProviders cpcs with
  | .error e => .error e
  | .ok providers => .ok (if 0 < providers.length then some providers else none)

/-- An entry the chain accepts: name `env`, or name `shared`/`static`
with the matching sub-configuration present. -/
def validCPC (cpc : CredentialsProviderConfig) : Bool :=
  if cpc.Provider = EnvProviderName then true
  else if cpc.Provider = SharedCredentialsProviderName then
    cpc.sharedCredentialsProviderConfig.isSome
  else if cpc.Provider = StaticProviderName then
    cpc.staticProviderConfig.isSome
  else false

/-! ### Concrete instances used to exercise the theorems -/

/-- A backend whose `Put` always fails with an I/O error. -/
def failStore : Store Unit where
  Put := fun _ _ s => (s, some "io failure")
  Get := fun _ _ => .error "io failure"
  Stat := fun _ _ => .error "io failure"

/-- A content-addressed store over the failing backend. -/
def failCAS : ContentAddressedStore Unit := ⟨lenDigest, failStore⟩

/-- A trivial `Encrypt` instance: the ciphertext is the plaintext, the
secret key is empty. -/
def idEncrypt : Bytes → Bytes → Except Err Blob :=
  fun data _ => .ok ⟨data, []⟩

/-- An `Encrypt` instance that always fails. -/
def failEncrypt : Bytes → Bytes → Except Err Blob :=
  fun _ _ => .error "encryption failed"

/-- A trivial `Decrypt` instance: returns the ciphertext. -/
def idDecrypt : Bytes → Bytes → Bytes → Except Err Bytes :=
  fun _ encryptedData _ => .ok encryptedData

/-- A `Decrypt` instance that always fails. -/
def failDecrypt : Bytes → Bytes → Bytes → Except Err Bytes :=
  fun _ _ _ => .error "decrypt failure"

/-- An `env` chain entry. -/
def cpcEnv : CredentialsProviderConfig := ⟨"env", none, none⟩

/-- A well-formed `static` chain entry. -/
def cpcStaticOk : CredentialsProviderConfig := ⟨"static", none, some ⟨"a", "b", "c"⟩⟩

/-- A `shared` chain entry whose sub-configuration is missing. -/
def cpcSharedBad : CredentialsProviderConfig := ⟨"shared", none, none⟩

/-! ## Theorems -/

/-- C2: the addresser closure returned by `makeAddresser` is stateless
across calls: over any sequence of inputs, starting from any hasher state,
each call returns exactly the digest of that call's own input, which is
also what one call on a freshly initialized hasher produces. -/
theorem addresser_stateless (digest : Bytes → Bytes) (hasher : Hasher)
    (inputs : List Bytes) :
    (runAddresser digest hasher inputs).1 = inputs.map digest ∧
    (∀ data : Bytes, (makeAddresser digest Hasher.new data).1 = digest data) := by
  constructor
  · induction inputs generalizing hasher with
    | nil => rfl
    | cons d ds ih =>
      simp only [runAddresser, List.map_cons, List.cons.injEq]
      exact ⟨rfl, ih _⟩
  · intro data
    rfl

/-- C3: `contentAddressedStore.Put` computes the address with the
addresser, delegates the write of exactly that `(address, data)` pair to
the underlying store, and returns that address, which coincides with
`Address(data)`. -/
theorem cas_put_spec {σ : Type} (cas : ContentAddressedStore σ) (data : Bytes)
    (s : σ) :
    (ContentAddressedStore.Put cas data s).1.1 =
      ContentAddressedStore.Address cas data ∧
    ((ContentAddressedStore.Put cas data s).2,
      (ContentAddressedStore.Put cas data s).1.2) =
      cas.store.Put (ContentAddressedStore.Address cas data) data s :=
  ⟨rfl, rfl⟩

/-- C10: `contentAddressedStore.Put` always returns the addresser's output
as the address component, also when the underlying store's write fails;
when the addresser's output is nonempty, so is the returned address. -/
theorem cas_put_address_on_error {σ : Type} (cas : ContentAddressedStore σ)
    (data : Bytes) (s : σ) :
    (ContentAddressedStore.Put cas data s).1.1 = cas.addresser data ∧
    (∀ e : Err, (ContentAddressedStore.Put cas data s).1.2 = some e →
      (ContentAddressedStore.Put cas data s).1.1 = cas.addresser data) ∧
    (cas.addresser data ≠ [] → (ContentAddressedStore.Put cas data s).1.1 ≠ []) := by
  refine ⟨rfl, fun _ _ => rfl, fun h => ?_⟩
  simpa [ContentAddressedStore.Put] using h

/-- Witness for C10: over the always-failing backend, `Put` reports the
I/O error yet still returns the (nonempty) computed address. -/
theorem cas_put_address_on_error_witness :
    (ContentAddressedStore.Put failCAS [3] ()).1.2 = some "io failure" ∧
    (ContentAddressedStore.Put failCAS [3] ()).1.1 = lenDigest [3] ∧
    (ContentAddressedStore.Put failCAS [3] ()).1.1 ≠ [] :=
  ⟨rfl, (cas_put_address_on_error failCAS [3] ()).2.1 "io failure" rfl,
    (cas_put_address_on_error failCAS [3] ()).2.2 (by decide)⟩

/-- C6: `hoard.Get` is exactly the composition of fetching the ciphertext
at `ref.Address` from the content-addressed store with decrypting it under
`ref.SecretKey` and `ref.Salt`; in particular when both steps succeed the
decrypted bytes are returned unmodified. -/
theorem hoardGet_is_fetch_then_decrypt {σ : Type}
    (Decrypt : Bytes → Bytes → Bytes → Except Err Bytes)
    (cas : ContentAddressedStore σ) (ref : Ref) (s : σ) :
    hoardGet Decrypt cas ref s =
      (ContentAddressedStore.Get cas ref.Address s).bind
        (fun encryptedData => Decrypt ref.SecretKey encryptedData ref.Salt) := by
  cases hget : ContentAddressedStore.Get cas ref.Address s with
  | error e => simp [hoardGet, hget, Except.bind]
  | ok encryptedData =>
    cases hdec : Decrypt ref.SecretKey encryptedData ref.Salt with
    | error e => simp [hoardGet, hget, hdec, Except.bind]
    | ok data => simp [hoardGet, hget, hdec, Except.bind]

/-- C5: `hoard.Ref` performs no write: the backend state after the call is
the state before it, `Stat` answers at every address are unchanged, and
over the in-memory backend `Stat` at the returned reference's address
reports `exists = false` whenever that address was not previously stored. -/
theorem hoardRef_no_write {σ : Type} (Encrypt : Bytes → Bytes → Except Err Blob)
    (cas : ContentAddressedStore σ) (data salt : Bytes) (s : σ) :
    (hoardRef Encrypt cas data salt s).2 = s ∧
    (∀ address : Bytes,
      ContentAddressedStore.Stat cas address (hoardRef Encrypt cas data salt s).2 =
        ContentAddressedStore.Stat cas address s) ∧
    (∀ (digest : Bytes → Bytes) (ms : MemState) (ref : Ref),
      (hoardRef Encrypt ⟨digest, memStore⟩ data salt ms).1 = .ok ref →
      ms.lookup ref.Address = none →
      ContentAddressedStore.Stat ⟨digest, memStore⟩ ref.Address
        (hoardRef Encrypt ⟨digest, memStore⟩ data salt ms).2 = .ok ⟨false, 0⟩) := by
  have hsnd : ∀ (τ : Type) (cas' : ContentAddressedStore τ) (t : τ),
      (hoardRef Encrypt cas' data salt t).2 = t := by
    intro τ cas' t
    unfold hoardRef
    cases Encrypt data salt <;> rfl
  refine ⟨hsnd σ cas s, fun address => by rw [hsnd σ cas s], ?_⟩
  intro digest ms ref _href hlook
  rw [hsnd MemState ⟨digest, memStore⟩ ms]
  simp [ContentAddressedStore.Stat, memStore, hlook]

/-- Witness for C5: a concrete `Ref` call over the empty in-memory store
leaves the state empty and `Stat` at the returned address reports absence. -/
theorem hoardRef_no_write_witness :
    ContentAddressedStore.Stat memCAS [1]
      (hoardRef idEncrypt memCAS [7] [] ([] : MemState)).2 =
      .ok ⟨false, 0⟩ :=
  (hoardRef_no_write idEncrypt memCAS [7] [] []).2.2 lenDigest []
    (Reference.New [1] [] []) rfl rfl

/-- C1: whenever `hoard.Put` succeeds, `hoard.Ref` on the same data and
salt also succeeds, and both references carry the same address (both are
the addresser applied to the ciphertext of the same deterministic
`Encrypt` call). -/
theorem put_ref_same_address {σ : Type} (Encrypt : Bytes → Bytes → Except Err Blob)
    (cas : ContentAddressedStore σ) (data salt : Bytes) (s : σ) (ref : Ref)
    (s' : σ) (h : hoardPut Encrypt cas data salt s = (.ok ref, s')) :
    ∃ ref2 : Ref, (hoardRef Encrypt cas data salt s).1 = .ok ref2 ∧
      ref2.Address = ref.Address := by
  cases hE : Encrypt data salt with
  | error e => simp [hoardPut, hE] at h
  | ok blob =>
    refine ⟨Reference.New (cas.Address blob.encryptedData) blob.secretKey salt,
      by simp [hoardRef, hE], ?_⟩
    simp only [hoardPut, hE] at h
    cases herr : (ContentAddressedStore.Put cas blob.encryptedData s).1.2 with
    | some e =>
      rw [herr] at h
      simp at h
    | none =>
      rw [herr] at h
      simp only [Prod.mk.injEq, Except.ok.injEq] at h
      rw [← h.1]
      rfl

/-- Witness for C1: a concrete successful `Put` over the empty in-memory
store, and the matching `Ref` address. -/
theorem put_ref_same_address_witness :
    hoardPut idEncrypt memCAS [7] [] ([] : MemState) =
      (.ok (Reference.New [1] [] []), [([1], [7])]) ∧
    ∃ ref2 : Ref, (hoardRef idEncrypt memCAS [7] [] ([] : MemState)).1 = .ok ref2 ∧
      ref2.Address = (Reference.New [1] [] []).Address :=
  ⟨rfl, put_ref_same_address idEncrypt memCAS [7] [] []
    (Reference.New [1] [] []) [([1], [7])] rfl⟩

/-- C4: the facade surfaces errors unchanged and never pairs a payload
with an error: an `Encrypt` failure makes `Put` return that error with
the store untouched, a backend write failure makes `Put` return that
error, an `Encrypt` failure makes `Ref` return that error with the store
untouched, and a fetch or decrypt failure makes `Get` return that error
with nil data. -/
theorem errors_propagate {σ : Type} (Encrypt : Bytes → Bytes → Except Err Blob)
    (Decrypt : Bytes → Bytes → Bytes → Except Err Bytes)
    (cas : ContentAddressedStore σ) (data salt : Bytes) (ref : Ref) (s : σ)
    (e : Err) :
    (Encrypt data salt = .error e → hoardPut Encrypt cas data salt s = (.error e, s)) ∧
    (∀ (blob : Blob) (s' : σ), Encrypt data salt = .ok blob →
      cas.store.Put (cas.addresser blob.encryptedData) blob.encryptedData s =
        (s', some e) →
      hoardPut Encrypt cas data salt s = (.error e, s')) ∧
    (Encrypt data salt = .error e → hoardRef Encrypt cas data salt s = (.error e, s)) ∧
    (ContentAddressedStore.Get cas ref.Address s = .error e →
      hoardGet Decrypt cas ref s = .error e) ∧
    (∀ ct : Bytes, ContentAddressedStore.Get cas ref.Address s = .ok ct →
      Decrypt ref.SecretKey ct ref.Salt = .error e →
      hoardGet Decrypt cas ref s = .error e) := by
  refine ⟨fun hE => by simp [hoardPut, hE], ?_,
    fun hE => by simp [hoardRef, hE],
    fun hget => by simp [hoardGet, hget],
    fun ct hget hdec => by simp [hoardGet, hget, hdec]⟩
  intro blob s' hE hPut
  simp [hoardPut, hE, ContentAddressedStore.Put, hPut]

/-- Witness for C4: the five error paths exercised on concrete stores and
primitives, each surfacing the originating error message. -/
theorem errors_propagate_witness :
    hoardPut failEncrypt memCAS [1] [] ([] : MemState) =
      (.error "encryption failed", []) ∧
    hoardPut idEncrypt failCAS [1] [] () = (.error "io failure", ()) ∧
    hoardRef failEncrypt memCAS [1] [] ([] : MemState) =
      (.error "encryption failed", []) ∧
    hoardGet idDecrypt memCAS (Reference.New [9] [] []) [] =
      .error "blob not found" ∧
    hoardGet failDecrypt memCAS (Reference.New [2] [] []) [([2], [7, 7])] =
      .error "decrypt failure" :=
  ⟨(errors_propagate failEncrypt idDecrypt memCAS [1] []
      (Reference.New [] [] []) [] "encryption failed").1 rfl,
   (errors_propagate idEncrypt idDecrypt failCAS [1] []
      (Reference.New [] [] []) () "io failure").2.1 ⟨[1], []⟩ () rfl rfl,
   (errors_propagate failEncrypt idDecrypt memCAS [1] []
      (Reference.New [] [] []) [] "encryption failed").2.2.1 rfl,
   (errors_propagate idEncrypt idDecrypt memCAS [1] []
      (Reference.New [9] [] []) [] "blob not found").2.2.2.1 rfl,
   (errors_propagate idEncrypt failDecrypt memCAS [1] []
      (Reference.New [2] [] []) [([2], [7, 7])] "decrypt failure").2.2.2.2
      [7, 7] rfl rfl⟩

/-- C7: `parseSalt` returns the standard-base64 decoding of the string
when it decodes, the raw UTF-8 bytes of the string otherwise, and the
empty salt for the empty string. -/
theorem parseSalt_spec (s : String) :
    parseSalt "" = [] ∧
    (∀ bs : Bytes, decodeStringStd s = some bs → s ≠ "" → parseSalt s = bs) ∧
    (decodeStringStd s = none → parseSalt s = strUTF8Bytes s) := by
  refine ⟨rfl, ?_, ?_⟩
  · intro bs hdec hne
    simp [parseSalt, hne, hdec]
  · intro hdec
    by_cases h : s = ""
    · rw [h] at hdec
      exact absurd hdec (by decide)
    · simp [parseSalt, h, hdec]

/-- Witness for C7: a valid base64 salt is decoded, an invalid one is
taken as raw bytes. -/
theorem parseSalt_spec_witness :
    parseSalt "aGk=" = [104, 105] ∧ parseSalt "hi!" = strUTF8Bytes "hi!" :=
  ⟨(parseSalt_spec "aGk=").2.1 [104, 105] rfl (by decide),
   (parseSalt_spec "hi!").2.2 rfl⟩

/-- C8: `fatalf` prints the message (with a newline) on STDERR and exits
with code 1, and the `get` command with a non-empty ADDRESS argument but
an empty `--key` ends in exactly that fatal exit — never in an RPC. -/
theorem get_requires_key (msg address saltString : String) (h : address ≠ "") :
    ((fatalf msg).exitCode = 1 ∧ (fatalf msg).stderrLine = msg ++ "\n") ∧
    getCmdAction address "" saltString =
      .fatal (fatalf "A secret key must be provided in order to decrypt.") ∧
    (∀ ref : Ref, getCmdAction address "" saltString ≠ .rpc ref) := by
  have h2 : getCmdAction address "" saltString =
      .fatal (fatalf "A secret key must be provided in order to decrypt.") := by
    simp [getCmdAction, h]
  refine ⟨⟨rfl, rfl⟩, h2, ?_⟩
  intro ref hc
  rw [h2] at hc
  exact GetCmdOutcome.noConfusion hc

/-- Witness for C8: the concrete no-key invocation with address `QUJD`. -/
theorem get_requires_key_witness :
    getCmdAction "QUJD" "" "" =
      .fatal (fatalf "A secret key must be provided in order to decrypt.") :=
  (get_requires_key "boom" "QUJD" "" (by decide)).2.1

/-- A chain entry yields a provider exactly when its name is recognised
and the named sub-configuration is present. -/
theorem validCPC_iff_mk_ok (cpc : CredentialsProviderConfig) :
    validCPC cpc = true ↔ ∃ p : AWSProvider, mkChainProvider cpc = .ok p := by
  unfold validCPC mkChainProvider
  split_ifs with h1 h2 h3
  · simp
  · cases hs : cpc.sharedCredentialsProviderConfig <;>
      simp [SharedCredentialsProviderConfig.toProvider, hs]
  · cases hs : cpc.staticProviderConfig <;>
      simp [StaticProviderConfig.toProvider, hs]
  · simp

/-- On an all-valid configuration list the loop of
`AWSCredentialsFromChain` builds one provider per entry, in order. -/
theorem buildProviders_ok_of_valid :
    ∀ cpcs : List CredentialsProviderConfig,
      (∀ cpc ∈ cpcs, validCPC cpc = true) →
      ∃ ps, buildProviders cpcs = .ok ps ∧
        List.Forall₂ (fun c p => mkChainProvider c = .ok p) cpcs ps
  | [], _ => ⟨[], rfl, List.Forall₂.nil⟩
  | cpc :: rest, h => by
    obtain ⟨p, hp⟩ :=
      (validCPC_iff_mk_ok cpc).1 (h cpc (List.mem_cons_self cpc rest))
    obtain ⟨ps, hps, hf⟩ :=
      buildProviders_ok_of_valid rest (fun c hc => h c (List.mem_cons_of_mem _ hc))
    exact ⟨p :: ps, by simp [buildProviders, hp, hps], List.Forall₂.cons hp hf⟩

/-- If the loop of `AWSCredentialsFromChain` completes, every entry was
valid. -/
theorem valid_of_buildProviders_ok :
    ∀ (cpcs : List CredentialsProviderConfig) (ps : List AWSProvider),
      buildProviders cpcs = .ok ps → ∀ cpc ∈ cpcs, validCPC cpc = true
  | [], _, _, cpc, hmem => absurd hmem (List.not_mem_nil cpc)
  | c :: rest, ps, h, cpc, hmem => by
    cases hmk : mkChainProvider c with
    | error e => simp [buildProviders, hmk] at h
    | ok p =>
      cases hb : buildProviders rest with
      | error e => simp [buildProviders, hmk, hb] at h
      | ok ps' =>
        rcases List.mem_cons.1 hmem with hc | hc
        · subst hc
          exact (validCPC_iff_mk_ok cpc).2 ⟨p, hmk⟩
        · exact valid_of_buildProviders_ok rest ps' hb cpc hc

/-- The loop of `AWSCredentialsFromChain` stops with the error of the
first invalid entry. -/
theorem buildProviders_first_error :
    ∀ (pre : List CredentialsProviderConfig) (cpc : CredentialsProviderConfig)
      (post : List CredentialsProviderConfig),
      (∀ c ∈ pre, validCPC c = true) → validCPC cpc = false →
      ∃ e, buildProviders (pre ++ cpc :: post) = .error e ∧
        mkChainProvider cpc = .error e
  | [], cpc, post, _, hbad => by
    cases hmk : mkChainProvider cpc with
    | ok p =>
      have hv := (validCPC_iff_mk_ok cpc).2 ⟨p, hmk⟩
      rw [hbad] at hv
      exact absurd hv (by decide)
    | error e =>
      exact ⟨e, by simp [buildProviders, hmk], rfl⟩
  | c :: pre, cpc, post, hpre, hbad => by
    obtain ⟨p, hp⟩ :=
      (validCPC_iff_mk_ok c).1 (hpre c (List.mem_cons_self c pre))
    obtain ⟨e, he, hmk⟩ :=
      buildProviders_first_error pre cpc post
        (fun x hx => hpre x (List.mem_cons_of_mem _ hx)) hbad
    exact ⟨e, by simp [buildProviders, hp, he], hmk⟩

/-- C9: `AWSCredentialsFromChain` builds one provider per configuration
entry in list order; it succeeds exactly when every entry names one of
`env`, `shared`, `static` with the named sub-configuration present;
it fails with the error of the first invalid entry; and it returns nil
credentials without error on the empty list. -/
theorem creds_chain_spec (cpcs : List CredentialsProviderConfig) :
    AWSCredentialsFromChain [] = .ok none ∧
    ((∀ cpc ∈ cpcs, validCPC cpc = true) →
      ∃ ps, buildProviders cpcs = .ok ps ∧
        List.Forall₂ (fun c p => mkChainProvider c = .ok p) cpcs ps ∧
        AWSCredentialsFromChain cpcs =
          .ok (if 0 < ps.length then some ps else none)) ∧
    ((∃ r, AWSCredentialsFromChain cpcs = .ok r) →
      ∀ cpc ∈ cpcs, validCPC cpc = true) ∧
    (∀ pre cpc post, cpcs = pre ++ cpc :: post →
      (∀ c ∈ pre, validCPC c = true) → validCPC cpc = false →
      ∃ e, AWSCredentialsFromChain cpcs = .error e ∧
        mkChainProvider cpc = .error e) := by
  refine ⟨rfl, ?_, ?_, ?_⟩
  · intro hvalid
    obtain ⟨ps, hps, hf⟩ := buildProviders_ok_of_valid cpcs hvalid
    exact ⟨ps, hps, hf, by simp [AWSCredentialsFromChain, hps]⟩
  · rintro ⟨r, hr⟩
    cases hb : buildProviders cpcs with
    | error e => simp [AWSCredentialsFromChain, hb] at hr
    | ok ps => exact valid_of_buildProviders_ok cpcs ps hb
  · intro pre cpc post hsplit hpre hbad
    obtain ⟨e, he, hmk⟩ := buildProviders_first_error pre cpc post hpre hbad
    subst hsplit
    exact ⟨e, by simp [AWSCredentialsFromChain, he], hmk⟩

/-- Witness for C9: a valid two-entry chain builds both providers in
order, and a chain whose second entry lacks its `shared` sub-configuration
fails with that entry's error. -/
theorem creds_chain_spec_witness :
    (∃ ps, buildProviders [cpcEnv, cpcStaticOk] = .ok ps ∧
      List.Forall₂ (fun c p => mkChainProvider c = .ok p) [cpcEnv, cpcStaticOk] ps ∧
      AWSCredentialsFromChain [cpcEnv, cpcStaticOk] =
        .ok (if 0 < ps.length then some ps else none)) ∧
    (∃ e, AWSCredentialsFromChain [cpcEnv, cpcSharedBad, cpcEnv] = .error e ∧
      mkChainProvider cpcSharedBad = .error e) :=
  ⟨(creds_chain_spec [cpcEnv, cpcStaticOk]).2.1 (by decide),
   (creds_chain_spec [cpcEnv, cpcSharedBad, cpcEnv]).2.2.2 [cpcEnv] cpcSharedBad
     [cpcEnv] rfl (by decide) (by decide)⟩

end Hoard
